import Mathlib

/-!
Formal model of the directory-synchronization and ingestion pipeline of the
imgrep backend (`src/backend/app`), shallowly embedded in Lean.

Each Python function that the verified properties depend on is translated
into a computable Lean definition; recursive directory walks take an explicit
`fuel` argument bounding the recursion depth (any fuel larger than the height
of the directory tree gives the source semantics; filesystem trees are
finite, so the Python recursion is total on real inputs).  External
collaborators (the SHA-256 digest, the embedding model, thumbnailing and
image-metadata extraction, the vector store) are modelled as opaque total
functions or as parameters, following section 6 of the specification which
treats them as capabilities outside the core.
-/

deriving instance DecidableEq for Except

namespace Imgrep

/-! ## String utilities

Python compares strings lexicographically by code point and `dict`s preserve
insertion order; the model uses lists of characters, ordered by `Char.toNat`,
and association lists. -/

/-- Lexicographic comparison of character lists by code point, matching
Python string comparison. -/
def charListLe : List Char → List Char → Bool
  | [], _ => true
  | _ :: _, [] => false
  | a :: as, b :: bs =>
    if a < b then true
    else if b < a then false
    else charListLe as bs

/-- Python `a <= b` on strings. -/
def strLe (a b : String) : Bool := charListLe a.data b.data

/-- Python `s.startswith(p)`. -/
def strStartsWith (s p : String) : Bool := p.data.isPrefixOf s.data

/-- Lower-casing of an ASCII character, as Python `str.lower` acts on the
ASCII file-name extensions relevant here. -/
def lowerChar (c : Char) : Char :=
  if 65 ≤ c.toNat ∧ c.toNat ≤ 90 then Char.ofNat (c.toNat + 32) else c

/-- Python `s.lower()` (ASCII fragment). -/
def lowerString (s : String) : String := ⟨s.data.map lowerChar⟩

/-- Index of the last occurrence of a character in a list, Python `str.rfind`. -/
def rfindChar (c : Char) (cs : List Char) : Option Nat :=
  (List.range cs.length).foldl
    (fun acc j => if cs.getD j ' ' = c then some j else acc) none

/-- `pathlib.PurePath.suffix` of a final path component: the substring from
the last dot, provided that dot is neither the first nor the last character. -/
def pathSuffix (name : String) : String :=
  let cs := name.data
  match rfindChar '.' cs with
  | some i => if 0 < i ∧ i + 1 < cs.length then ⟨cs.drop i⟩ else ""
  | none => ""

/-- `IMAGE_EXTENSIONS` from `app/constants.py` / `app/core/config.py`. -/
def IMAGE_EXTENSIONS : List String :=
  [".jpg", ".jpeg", ".png", ".webp", ".gif", ".bmp", ".tiff"]

/-- `services/image.py::is_image_path`: the lower-cased suffix is a known
image extension. -/
def is_image_path (name : String) : Bool :=
  IMAGE_EXTENSIONS.contains (lowerString (pathSuffix name))

/-- Stand-in for the external `hashlib.sha256(...).hexdigest()` digest.  The
specification treats content hashing as an opaque fixed digest algorithm
(sections 2 and 6); the model uses an injective total function so that
distinct byte strings hash differently, mirroring the collision-freeness the
design relies on. -/
def sha256hex (s : String) : String := "sha256." ++ toString s.length ++ "." ++ s

/-- `services/image.py::compute_file_hash` reads the file and digests its
bytes; in the model a file is represented by its byte string. -/
def compute_file_hash (content : String) : String := sha256hex content

/-! ## Filesystem model

A directory tree: files carry their byte content and an `st_mtime` stamp
(`st_size` is the byte length of the content). -/

inductive FsNode where
  | file (content : String) (mtime : Nat)
  | dir (entries : List (String × FsNode))

/-- `x.is_dir()`. -/
def FsNode.isDir : FsNode → Bool
  | .dir _ => true
  | .file _ _ => false

/-- Python sort key `(not x.is_dir(), x.name)` used by both Merkle walks:
directories first, then name order. -/
def entryLe (a b : String × FsNode) : Bool :=
  let ka : Bool := !a.2.isDir
  let kb : Bool := !b.2.isDir
  if ka = kb then strLe a.1 b.1 else (!ka && kb)

/-- `sorted(dir_path.iterdir(), key=lambda x: (not x.is_dir(), x.name))`
(Python `sorted` is stable; so is insertion sort). -/
def sortEntries (l : List (String × FsNode)) : List (String × FsNode) :=
  l.insertionSort (fun a b => entryLe a b = true)

/-- `sorted(child_hashes)` over strings. -/
def sortStrings (l : List String) : List String :=
  l.insertionSort (fun a b => strLe a b = true)

/-- Joining of path components, `parent / name`. -/
def joinPath (parent name : String) : String := parent ++ "/" ++ name

/-! ## Merkle strategy (`services/sync_strategies.py::MerkleSyncStrategy`) -/

/-- `MerkleSyncStrategy._hash_children`: hash of the comma-joined sorted
child hashes. -/
def hash_children (child_hashes : List String) : String :=
  sha256hex (String.intercalate "," (sortStrings child_hashes))

/-- One row of the `merkle_nodes` table as produced by
`_build_merkle_tree` (`tracked_directory_id` is the enclosing directory and
`parent_id` is `None` at every call site, so neither is modelled). -/
structure MNodeRec where
  node_hash : String
  node_type : String
  relative_path : String
  file_hash : Option String
  file_size : Option Nat
deriving DecidableEq, Repr

/-- `f"{relative_path}/{item.name}" if relative_path else item.name`. -/
def childRel (relative_path name : String) : String :=
  if relative_path = "" then name else relative_path ++ "/" ++ name

/-- The loop body of `_build_merkle_tree`: a subdirectory contributes its
recursively computed hash and nodes (when non-empty); an image file
contributes its content hash and a file node. -/
def buildStep (recurse : FsNode → String → String × List MNodeRec)
    (relative_path : String) (acc : List String × List MNodeRec)
    (item : String × FsNode) : List String × List MNodeRec :=
  let item_relative := childRel relative_path item.1
  match item.2 with
  | FsNode.dir _ =>
    let sub := recurse item.2 item_relative
    if sub.1 ≠ "" then (acc.1 ++ [sub.1], acc.2 ++ sub.2) else acc
  | FsNode.file content _ =>
    if is_image_path item.1 then
      let fileHash := compute_file_hash content
      (acc.1 ++ [fileHash],
       acc.2 ++ [⟨fileHash, "file", item_relative, some fileHash, some content.length⟩])
    else acc

/-- `MerkleSyncStrategy._build_merkle_tree`: returns the directory hash and
the node rows of the subtree, walking children sorted directories-first.
File nodes are emitted for image files; a directory node (relative path `.`
for the root) is appended when the directory has any hashed child. -/
def build_merkle_tree : Nat → FsNode → String → String × List MNodeRec
  | 0, _, _ => ("", [])
  | _ + 1, FsNode.file _ _, _ => ("", [])
  | fuel + 1, FsNode.dir entries, relative_path =>
    let walked := (sortEntries entries).foldl
      (buildStep (fun n r => build_merkle_tree fuel n r) relative_path) ([], [])
    let dir_hash := if walked.1 = [] then "" else hash_children walked.1
    let node_data_list :=
      if dir_hash ≠ "" then
        walked.2 ++
          [⟨dir_hash, "directory", (if relative_path = "" then "." else relative_path),
            none, none⟩]
      else walked.2
    (dir_hash, node_data_list)

/-- The hash a tree entry contributes to its parent, given the hash
function for subtrees: `none` when it contributes nothing (an empty
subdirectory or a non-image file). -/
def childHashOnly (hashOf : FsNode → String) (item : String × FsNode) :
    Option String :=
  match item.2 with
  | FsNode.dir _ =>
    let h := hashOf item.2
    if h ≠ "" then some h else none
  | FsNode.file content _ =>
    if is_image_path item.1 then some (compute_file_hash content) else none

/-- The hash component of `_build_merkle_tree` alone, without the node rows
or relative paths (which the hash never depends on). -/
def merkleHashOnly : Nat → FsNode → String
  | 0, _ => ""
  | _ + 1, FsNode.file _ _ => ""
  | fuel + 1, FsNode.dir entries =>
    let hs := (sortEntries entries).filterMap (childHashOnly (merkleHashOnly fuel))
    if hs = [] then "" else hash_children hs

/-- `MerkleSyncStrategy._load_existing_tree`: the stored rows as a map from
relative path to node hash (association list in row order). -/
def load_existing_tree (nodes : List MNodeRec) : List (String × String) :=
  nodes.map (fun n => (n.relative_path, n.node_hash))

/-- The accumulator threaded through `_compare_trees.traverse`:
`added` collects absolute paths of new or hash-changed image files and
`deleted` collects stored relative paths judged missing. -/
structure TraverseAcc where
  added : List String
  deleted : List String
deriving DecidableEq, Repr

/-- `MerkleSyncStrategy._compare_trees.traverse`: walks the current tree,
comparing each image file with the stored node of the same relative path;
after the children of a level are walked it appends, for that level, every
stored path that starts with `relative_path or "."` and was not seen among
the immediate children.  Returns the updated accumulator and the level hash.
The absolute path of the walked directory is carried for the `added`
entries, which the source stores as absolute `Path`s. -/
def traverse (existing_tree : List (String × String)) :
    Nat → FsNode → String → String → TraverseAcc → TraverseAcc × String
  | 0, _, _, _, acc => (acc, "")
  | _ + 1, FsNode.file _ _, _, _, acc => (acc, "")
  | fuel + 1, FsNode.dir entries, abs_path, relative_path, acc0 =>
    let items := sortEntries entries
    let step := fun (st : TraverseAcc × List String × List String)
        (item : String × FsNode) =>
      let (acc, child_hashes, seen_paths) := st
      let item_relative :=
        if relative_path = "" then item.1 else relative_path ++ "/" ++ item.1
      let seen_paths := seen_paths ++ [item_relative]
      match item.2 with
      | FsNode.dir _ =>
        let r := traverse existing_tree fuel item.2 (joinPath abs_path item.1)
          item_relative acc
        if r.2 ≠ "" then (r.1, child_hashes ++ [r.2], seen_paths)
        else (r.1, child_hashes, seen_paths)
      | FsNode.file content _ =>
        if is_image_path item.1 then
          let file_hash := compute_file_hash content
          let acc :=
            match existing_tree.lookup item_relative with
            | none => { acc with added := acc.added ++ [joinPath abs_path item.1] }
            | some stored_hash =>
              if stored_hash ≠ file_hash then
                { acc with added := acc.added ++ [joinPath abs_path item.1] }
              else acc
          (acc, child_hashes ++ [file_hash], seen_paths)
        else (acc, child_hashes, seen_paths)
    let walked := items.foldl step (acc0, [], [])
    let level_deleted :=
      (existing_tree.map Prod.fst).filter (fun existing_path =>
        strStartsWith existing_path (if relative_path = "" then "." else relative_path)
          && !(walked.2.2.contains existing_path))
    let acc := { walked.1 with deleted := walked.1.deleted ++ level_deleted }
    (acc, if walked.2.1 = [] then "" else hash_children walked.2.1)

/-- `MerkleSyncStrategy._compare_trees`: run `traverse` from the tracked
root and return `(added, deleted)`. -/
def compare_trees (existing_tree : List (String × String)) (fuel : Nat)
    (dir_path : String) (root : FsNode) : List String × List String :=
  let r := traverse existing_tree fuel root dir_path "" ⟨[], []⟩
  (r.1.added, r.1.deleted)

/-! ## Sync results and tracked directories -/

/-- `services/sync_strategies.py::SyncResult` (the wall-clock
`sync_duration_seconds` field is not modelled). -/
structure SyncResult where
  added : List String
  modified : List String
  deleted : List String
  unchanged : Nat
  errors : List String
  strategy_used : String
deriving DecidableEq, Repr

/-- A row of `tracked_directories` (`models/sql.py::TrackedDirectory`);
timestamps are seconds. -/
structure TrackedDir where
  path : String
  sync_strategy : String
  is_active : Bool
  last_synced_at : Option Nat
  last_error : Option String
  sync_interval_seconds : Nat
deriving DecidableEq, Repr

/-- The error message both strategies put in the result when the tracked
path does not exist. -/
def missingDirMsg (dir_path : String) : String :=
  "Directory does not exist: " ++ dir_path

/-! ## Snapshot strategy (`services/sync_strategies.py::SnapshotSyncStrategy`) -/

/-- A row of `directory_snapshots` (`models/sql.py::DirectorySnapshot`);
`last_seen_at` not being read anywhere relevant, it is kept as a plain
timestamp. -/
structure SnapRow where
  relative_path : String
  file_hash : String
  file_size : Nat
  modified_time : Nat
  last_seen_at : Nat
deriving DecidableEq, Repr

/-- The per-file record of `SnapshotSyncStrategy._scan_files`: absolute
path, `st_size`, `st_mtime`, plus the byte content standing in for what
`compute_file_hash` would read from disk. -/
structure FileInfo where
  path : String
  size : Nat
  mtime : Nat
  content : String
deriving DecidableEq, Repr

/-- Recursive collection of image files with their stat data, keyed by
relative path (`services/image.py::scan_directory` feeding
`SnapshotSyncStrategy._scan_files`). -/
def collectFiles : Nat → FsNode → String → String → List (String × FileInfo)
  | 0, _, _, _ => []
  | _ + 1, FsNode.file _ _, _, _ => []
  | fuel + 1, FsNode.dir entries, abs_path, relative_path =>
    entries.foldl (fun acc item =>
      let item_relative :=
        if relative_path = "" then item.1 else relative_path ++ "/" ++ item.1
      match item.2 with
      | FsNode.dir _ =>
        acc ++ collectFiles fuel item.2 (joinPath abs_path item.1) item_relative
      | FsNode.file content mtime =>
        if is_image_path item.1 then
          acc ++ [(item_relative, ⟨joinPath abs_path item.1, content.length, mtime, content⟩)]
        else acc) []

/-- `scan_directory` returns the matched paths sorted; `_scan_files` builds
its dict in that order, so the scan is the collected list sorted by
absolute path. -/
def scan_files (fuel : Nat) (dir_path : String) (root : FsNode) :
    List (String × FileInfo) :=
  (collectFiles fuel root dir_path "").insertionSort
    (fun a b => strLe a.2.path b.2.path = true)

/-- `SnapshotSyncStrategy._detect_changes`: walk the scanned files against
the stored snapshots; a missing snapshot is *added*; a size or mtime
mismatch triggers a hash comparison — hash change is *modified*, hash
equality refreshes the stored mtime and counts as *unchanged*; a full
metadata match is *unchanged* without hashing.  Returns
`(added, modified, unchanged, errors)` (the source never appends to
`errors`) together with the snapshot rows as mutated in the session. -/
def detect_changes (current_files : List (String × FileInfo))
    (existing_snapshots : List (String × SnapRow)) :
    (List String × List String × Nat × List String) × List (String × SnapRow) :=
  current_files.foldl
    (fun (st : (List String × List String × Nat × List String) × List (String × SnapRow))
        (cur : String × FileInfo) =>
      let ((added, modified, unchanged, errors), snaps) := st
      let (relative_path, file_info) := cur
      match existing_snapshots.lookup relative_path with
      | none => ((added ++ [file_info.path], modified, unchanged, errors), snaps)
      | some existing =>
        if existing.file_size ≠ file_info.size ∨ existing.modified_time ≠ file_info.mtime then
          let file_hash := compute_file_hash file_info.content
          if existing.file_hash ≠ file_hash then
            ((added, modified ++ [file_info.path], unchanged, errors), snaps)
          else
            ((added, modified, unchanged + 1, errors),
             snaps.map (fun s =>
               if s.1 = relative_path then (s.1, { s.2 with modified_time := file_info.mtime })
               else s))
        else ((added, modified, unchanged + 1, errors), snaps))
    (([], [], 0, []), existing_snapshots)

/-- `SnapshotSyncStrategy._update_snapshots`: upsert a row for every added
or modified path (recomputing hash and stat from the filesystem, here read
off the scan) and delete the rows of deleted relative paths. -/
def update_snapshots (snaps : List (String × SnapRow))
    (current_files : List (String × FileInfo))
    (added_modified : List String) (deleted : List String) (now : Nat) :
    List (String × SnapRow) :=
  let upserted := added_modified.foldl (fun acc img_path =>
    match current_files.find? (fun c => c.2.path = img_path) with
    | none => acc
    | some (relative_path, info) =>
      let file_hash := compute_file_hash info.content
      if acc.any (fun s => s.1 = relative_path) then
        acc.map (fun s =>
          if s.1 = relative_path then
            (s.1, { s.2 with file_hash := file_hash, file_size := info.size,
                             modified_time := info.mtime, last_seen_at := now })
          else s)
      else acc ++ [(relative_path, ⟨relative_path, file_hash, info.size, info.mtime, now⟩)])
    snaps
  upserted.filter (fun s => !(deleted.contains s.1))

/-- `SnapshotSyncStrategy.sync`: the filesystem is `none` when
`dir_path.exists()` is false.  Returns the result, the updated tracked
directory row and the updated snapshot rows. -/
def snapshotSync (fuel : Nat) (dir : TrackedDir) (fs : Option FsNode)
    (snaps : List (String × SnapRow)) (now : Nat) :
    SyncResult × TrackedDir × List (String × SnapRow) :=
  match fs with
  | none =>
    (⟨[], [], [], 0, [missingDirMsg dir.path], "snapshot"⟩, dir, snaps)
  | some root =>
    let current_files := scan_files fuel dir.path root
    let detected := detect_changes current_files snaps
    let (added, modified, unchanged, errors) := detected.1
    let deleted :=
      (snaps.map Prod.fst).filter (fun rel => !(current_files.any (fun c => c.1 = rel)))
    let snaps := update_snapshots detected.2 current_files (added ++ modified) deleted now
    let dir := { dir with last_synced_at := some now, last_error := none }
    (⟨added, modified, deleted, unchanged, errors, "snapshot"⟩, dir, snaps)

/-! ## Merkle sync entry points -/

/-- `MerkleSyncStrategy._initial_sync`: build and persist the tree; every
file node becomes an added absolute path. -/
def merkleInitialSync (fuel : Nat) (dir : TrackedDir) (dir_path : String)
    (root : FsNode) : SyncResult × TrackedDir × List MNodeRec :=
  let built := build_merkle_tree fuel root ""
  let added := (built.2.filter (fun n => n.node_type = "file")).map
    (fun n => joinPath dir_path n.relative_path)
  (⟨added, [], [], 0, [], "merkle"⟩, dir, built.2)

/-- `MerkleSyncStrategy.sync`: missing path gives the one-error empty
result; an empty stored tree routes to `_initial_sync` (which does not
touch the tracked row); otherwise `_compare_trees` against the stored tree,
then `_rebuild_tree` (delete-all-then-insert-all) and the success update of
the tracked row. -/
def merkleSync (fuel : Nat) (dir : TrackedDir) (fs : Option FsNode)
    (nodes : List MNodeRec) (now : Nat) :
    SyncResult × TrackedDir × List MNodeRec :=
  match fs with
  | none =>
    (⟨[], [], [], 0, [missingDirMsg dir.path], "merkle"⟩, dir, nodes)
  | some root =>
    let existing_tree := load_existing_tree nodes
    if existing_tree = [] then merkleInitialSync fuel dir dir.path root
    else
      let (added, deleted) := compare_trees existing_tree fuel dir.path root
      let rebuilt := (build_merkle_tree fuel root "").2
      let dir := { dir with last_synced_at := some now, last_error := none }
      (⟨added, [], deleted, 0, [], "merkle"⟩, dir, rebuilt)

/-! ## Relational store and Python call semantics -/

/-- A row of `images` (`models/sql.py::Image`). -/
structure ImageRow where
  id : Nat
  file_hash : String
  file_path : String
  thumbnail_path : Option String
  width : Option Nat
  height : Option Nat
  embedding_id : Option Nat
  embedding_status : String
deriving DecidableEq, Repr

/-- A row of `embeddings` (`models/sql.py::Embedding`; the JSON vector text
is not needed by any property and is omitted). -/
structure EmbRow where
  id : Nat
  model_name : String
deriving DecidableEq, Repr

/-- The relational state a sync pass touches: image and embedding rows, the
image ids holding cluster-assignment rows, and the per-strategy tables. -/
structure SyncDb where
  images : List ImageRow
  embeddings : List EmbRow
  cluster_assignments : List Nat
  snapshots : List (String × SnapRow)
  merkle_nodes : List MNodeRec
deriving DecidableEq, Repr

/-- Whether a Python call binding the given keyword arguments against a
function with the given named parameters succeeds; a keyword naming no
parameter raises `TypeError` at call time, before the body runs. -/
def pythonCallOk (params kwargs : List String) : Bool :=
  kwargs.all (fun k => params.contains k)

/-- Named parameters of `SnapshotSyncStrategy.sync` and
`MerkleSyncStrategy.sync` (both signatures are
`sync(self, tracked_dir, session)`). -/
def sync_method_params : List String := ["tracked_dir", "session"]

/-- Keyword arguments of the call
`strategy.sync(db_tracked_dir, session, extensions=self._image_extensions)`
in `DirectorySyncService._sync_with_error_handling_obj`. -/
def scheduled_sync_call_kwargs : List String := ["extensions"]

/-- Named parameters of `image_ingestion.py::save_ingested_images`. -/
def save_ingested_images_params : List String :=
  ["session", "thumbnails_data", "embeddings", "vector_store"]

/-- Keyword arguments of the `save_ingested_images(...)` call in
`DirectorySyncService._index_files` (the first four arguments are passed
positionally; `model_name=self._embedding_model` is the keyword). -/
def index_files_save_call_kwargs : List String := ["model_name"]

/-- Named parameters of `image_ingestion.py::process_directory_for_ingestion`. -/
def process_directory_for_ingestion_params : List String :=
  ["session", "directory_path", "job_id", "thumbnail_dir", "vector_store",
   "progress_callback"]

/-- Keyword arguments of the `process_directory_for_ingestion(...)` call in
`IngestionJobService.process_directory_job`. -/
def process_directory_job_call_kwargs : List String :=
  ["session", "directory_path", "job_id", "thumbnail_dir", "vector_store",
   "progress_callback", "batch_size", "image_extensions", "embedding_model"]

/-- `str(e)` of the `TypeError` raised by the scheduled sync call, per
strategy class (quotes around the argument name elided). -/
def sync_type_error_msg (cls : String) : String :=
  cls ++ ".sync() got an unexpected keyword argument: extensions"

/-- `str(e)` of the `TypeError` raised by the `save_ingested_images` call
in `_index_files`. -/
def save_type_error_msg : String :=
  "save_ingested_images() got an unexpected keyword argument: model_name"

/-- `f"TypeError: {str(e)}"` recorded by `process_directory_job` for the
`process_directory_for_ingestion` call (the first unexpected keyword wins). -/
def process_directory_type_error_msg : String :=
  "TypeError: process_directory_for_ingestion() got an unexpected keyword argument: batch_size"

/-! ## Ingestion of changed files
(`services/directory_sync.py::_index_files` and collaborators) -/

/-- `services/image.py::generate_thumbnail`: the thumbnail of a file is
stored under its content hash. -/
def generate_thumbnail (file_hash : String) : String :=
  "thumbnails/" ++ file_hash ++ ".jpg"

/-- `SIGLIP_MODEL_NAME` from `core/config.py`. -/
def SIGLIP_MODEL_NAME : String := "google/siglip-base-patch16-512"

/-- The `(img_path, file_hash, thumb_path, metadata)` tuples collected for
embedding; metadata is reduced to the width/height the `Image` row keeps. -/
structure ThumbData where
  path : String
  file_hash : String
  thumbnail_path : String
  width : Option Nat
  height : Option Nat
deriving DecidableEq, Repr

/-- In-place `existing.file_path = str(img_path)` on the single row with
the given content hash (the `images.file_hash` unique constraint guarantees
at most one matching row, so updating the first match is exact). -/
def setPathByHash : List ImageRow → String → String → List ImageRow
  | [], _, _ => []
  | r :: rs, h, p =>
    if r.file_hash = h then { r with file_path := p } :: rs
    else r :: setPathByHash rs h p

/-- Next free surrogate id for a table. -/
def nextId (ids : List Nat) : Nat := ids.foldl max 0 + 1

/-- `image_ingestion.py::save_ingested_images` (the four-parameter
function): for each thumbnail tuple paired with an embedding, insert an
`Embedding` row and an `Image` row with `embedding_status = "completed"`
(the vector-store mirroring has no relational effect). -/
def save_ingested_images (thumbnails_data : List ThumbData)
    (embeddings : List (List Int)) (db : SyncDb) : SyncDb :=
  (thumbnails_data.take embeddings.length).foldl
    (fun db t =>
      let eid := nextId (db.embeddings.map EmbRow.id)
      let iid := nextId (db.images.map ImageRow.id)
      { db with
        embeddings := db.embeddings ++ [⟨eid, SIGLIP_MODEL_NAME⟩],
        images := db.images ++
          [⟨iid, t.file_hash, t.path, some t.thumbnail_path, t.width, t.height,
            some eid, "completed"⟩] })
    db

/-- The per-file body of the first phase of `_index_files`: skip missing
files, update `file_path` in place for known content, queue new content for
thumbnailing and embedding. -/
def indexStep (fs : List (String × String))
    (metaOf : String → Option Nat × Option Nat)
    (st : SyncDb × List ThumbData) (img_path : String) : SyncDb × List ThumbData :=
  match fs.lookup img_path with
  | none => st
  | some content =>
    let file_hash := compute_file_hash content
    if st.1.images.any (fun r => r.file_hash = file_hash) then
      ({ st.1 with images := setPathByHash st.1.images file_hash img_path }, st.2)
    else
      let meta := metaOf img_path
      (st.1, st.2 ++ [⟨img_path, file_hash, generate_thumbnail file_hash,
                       meta.1, meta.2⟩])

/-- `DirectorySyncService._index_files`.  `fs` is the flat listing of the
filesystem (absolute path to byte content) backing `img_path.exists()` and
`compute_file_hash`; `metaOf` models the external metadata extractor and
`embedOf` the per-file outcome of the batched embedder (`none` for a file
whose batch failed).  Existing content gets its `file_path` updated in
place; new files are thumbnailed and queued; if any queued file embeds
successfully, the `save_ingested_images(..., model_name=...)` call raises
`TypeError`, returned as an error for the caller to roll back. -/
def index_files (fs : List (String × String))
    (metaOf : String → Option Nat × Option Nat)
    (embedOf : String → Option (List Int))
    (file_paths : List String) (db : SyncDb) : Except String SyncDb :=
  let phase1 := file_paths.foldl (indexStep fs metaOf) (db, [])
  let db1 := phase1.1
  let thumbnails_data := phase1.2
  if thumbnails_data = [] then Except.ok db1
  else
    let embeddings := thumbnails_data.map (fun t => embedOf t.path)
    let valid_data := (thumbnails_data.zip embeddings).filterMap
      (fun te => te.2.map (fun e => (te.1, e)))
    if valid_data = [] then Except.ok db1
    else if pythonCallOk save_ingested_images_params index_files_save_call_kwargs then
      Except.ok (save_ingested_images (valid_data.map Prod.fst)
        (valid_data.map Prod.snd) db1)
    else Except.error save_type_error_msg

/-- `DirectorySyncService._handle_deleted_files` deleting one image row:
cluster assignments first, then the image, then its embedding. -/
def deleteImage (db : SyncDb) (image : ImageRow) : SyncDb :=
  let db := { db with
    cluster_assignments := db.cluster_assignments.filter (fun iid => iid ≠ image.id) }
  let db := { db with images := db.images.filter (fun r => r.id ≠ image.id) }
  match image.embedding_id with
  | some eid => { db with embeddings := db.embeddings.filter (fun e => e.id ≠ eid) }
  | none => db

/-- `DirectorySyncService._handle_deleted_files`: each deleted relative
path is resolved to an absolute path under the tracked root and every image
row with exactly that path is removed with its dependents. -/
def handle_deleted_files (dir_path : String) (deleted_relative_paths : List String)
    (db : SyncDb) : SyncDb :=
  deleted_relative_paths.foldl
    (fun db rel_path =>
      let abs_path := joinPath dir_path rel_path
      (db.images.filter (fun r => r.file_path = abs_path)).foldl deleteImage db)
    db

/-- `DirectorySyncService._process_sync_changes`: deletions first, then
indexing of added+modified files, then the success update of the tracked
row; any exception rolls the session back, so the caller keeps the state
from before the call. -/
def process_sync_changes (fs : List (String × String))
    (metaOf : String → Option Nat × Option Nat)
    (embedOf : String → Option (List Int))
    (dir : TrackedDir) (sync_result : SyncResult) (db : SyncDb) (now : Nat) :
    Except String (TrackedDir × SyncDb) :=
  let db1 := if sync_result.deleted ≠ [] then
    handle_deleted_files dir.path sync_result.deleted db else db
  let files_to_index := sync_result.added ++ sync_result.modified
  match (if files_to_index ≠ [] then index_files fs metaOf embedOf files_to_index db1
         else Except.ok db1) with
  | Except.error e => Except.error e
  | Except.ok db2 =>
    Except.ok ({ dir with last_synced_at := some now, last_error := none }, db2)

/-- Flat listing of every file of the tree (image or not), backing the
`img_path.exists()` checks. -/
def flattenFs : Nat → FsNode → String → List (String × String)
  | 0, _, _ => []
  | _ + 1, FsNode.file _ _, _ => []
  | fuel + 1, FsNode.dir entries, abs_path =>
    entries.foldl (fun acc item =>
      match item.2 with
      | FsNode.dir _ => acc ++ flattenFs fuel item.2 (joinPath abs_path item.1)
      | FsNode.file content _ => acc ++ [(joinPath abs_path item.1, content)]) []

/-- `DirectorySyncService.sync_directory` (the manual trigger):
dispatch the strategy by name (`get_sync_strategy` raises `ValueError` for
an unknown name), run its `sync`, then `_process_sync_changes`; a `none`
filesystem means the tracked path does not exist. -/
def sync_directory (fuel : Nat) (dir : TrackedDir) (fs : Option FsNode)
    (metaOf : String → Option Nat × Option Nat)
    (embedOf : String → Option (List Int))
    (db : SyncDb) (now : Nat) :
    Except String (SyncResult × TrackedDir × SyncDb) :=
  let fsFiles := match fs with
    | some root => flattenFs fuel root dir.path
    | none => []
  if dir.sync_strategy = "snapshot" then
    let (res, dir1, snaps) := snapshotSync fuel dir fs db.snapshots now
    let db1 := { db with snapshots := snaps }
    match process_sync_changes fsFiles metaOf embedOf dir1 res db1 now with
    | Except.error e => Except.error e
    | Except.ok (dir2, db2) => Except.ok (res, dir2, db2)
  else if dir.sync_strategy = "merkle" then
    let (res, dir1, nodes) := merkleSync fuel dir fs db.merkle_nodes now
    let db1 := { db with merkle_nodes := nodes }
    match process_sync_changes fsFiles metaOf embedOf dir1 res db1 now with
    | Except.error e => Except.error e
    | Except.ok (dir2, db2) => Except.ok (res, dir2, db2)
  else Except.error ("Unknown sync strategy: " ++ dir.sync_strategy)

/-! ## Job records (`services/ingestion_job.py::IngestionJobService`) -/

/-- Exact model of the float `progress` values the job paths produce: every
value written is either a literal (`0.0`, `1.0`) or a quotient
`processed / total` of small integers, all exactly representable, so a
fraction kept unreduced captures the float faithfully.  The float compares
equal to `1.0` exactly when numerator and denominator coincide (the model
never forms a quotient with a zero denominator). -/
structure Ratio where
  num : Nat
  den : Nat
deriving DecidableEq, Repr

/-- The float comparison `progress == 1.0`. -/
def Ratio.isOne (r : Ratio) : Bool := r.num = r.den

/-- The float literal `0.0`. -/
def Ratio.zero : Ratio := ⟨0, 1⟩

/-- The float literal `1.0`. -/
def Ratio.one : Ratio := ⟨1, 1⟩

/-- One entry of the in-process `_active_jobs` map. -/
structure JobRec where
  status : String
  progress : Ratio
  total : Nat
  processed : Nat
  errors : List String
  directory_path : Option String
deriving DecidableEq, Repr

/-- `IngestionJobService.init_job`. -/
def init_job : JobRec := ⟨"pending", Ratio.zero, 0, 0, [], none⟩

/-- A partial progress update, merged into the record by Python
`dict.update` (fields present in the update replace those of the record). -/
structure JobUpdate where
  status : Option String := none
  progress : Option Ratio := none
  total : Option Nat := none
  processed : Option Nat := none
  errors : Option (List String) := none
deriving DecidableEq, Repr

/-- `self._active_jobs[job_id].update(data)`. -/
def mergeUpdate (rec : JobRec) (u : JobUpdate) : JobRec :=
  { status := u.status.getD rec.status
    progress := u.progress.getD rec.progress
    total := u.total.getD rec.total
    processed := u.processed.getD rec.processed
    errors := u.errors.getD rec.errors
    directory_path := rec.directory_path }

/-! ## Scheduled sync pass
(`services/directory_sync.py::_sync_with_error_handling_obj`) -/

/-- Class name of the strategy `get_sync_strategy` returns for a name. -/
def strategy_class_name (strategy : String) : Option String :=
  if strategy = "snapshot" then some "SnapshotSyncStrategy"
  else if strategy = "merkle" then some "MerkleSyncStrategy"
  else none

/-- One scheduler-triggered pass over a tracked directory: a job is
created and marked processing with the directory path; the strategy's
`sync` is called with the `extensions=` keyword; on any exception the job
ends in `error` with the exception text appended, and the directory row is
re-fetched in a fresh session to record `last_error`.  The accepting branch
(reaching `_process_sync_changes` and the completed/progress-1.0 marking)
is reachable only if the keyword binding succeeds. -/
def sync_with_error_handling (fuel : Nat) (dir : TrackedDir) (fs : Option FsNode)
    (metaOf : String → Option Nat × Option Nat)
    (embedOf : String → Option (List Int))
    (db : SyncDb) (now : Nat) : JobRec × TrackedDir × SyncDb :=
  let job := { init_job with directory_path := some dir.path, status := "processing" }
  let fail := fun (e : String) =>
    ({ job with status := "error", errors := job.errors ++ [e] },
     { dir with last_error := some e }, db)
  match strategy_class_name dir.sync_strategy with
  | none => fail ("Unknown sync strategy: " ++ dir.sync_strategy)
  | some cls =>
    if pythonCallOk sync_method_params scheduled_sync_call_kwargs then
      match sync_directory fuel dir fs metaOf embedOf db now with
      | Except.ok (_, dir2, db2) =>
        ({ job with status := "completed", progress := Ratio.one }, dir2, db2)
      | Except.error e => fail e
    else
      fail (sync_type_error_msg cls)

/-! ## Directory-ingestion job
(`services/image_ingestion.py::process_directory_for_ingestion` and
`services/ingestion_job.py::process_directory_job`) -/

/-- The last ten entries of an error list (`self.errors[-10:]`). -/
def lastTen (l : List String) : List String := l.drop (l.length - 10)

/-- `EmbeddingProgress.to_dict()`. -/
def progress_to_dict (total processed : Nat) (errors : List String) : JobUpdate :=
  { total := some total
    processed := some processed
    progress := some (if 0 < total then (⟨processed, total⟩ : Ratio) else Ratio.one)
    errors := some (lastTen errors) }

/-- The batch error message `f"Batch {i}-{batch_end-1}: {str(e)}"` (the
embedder exception text is opaque). -/
def batch_error_msg (i batch_end : Nat) : String :=
  "Batch " ++ toString i ++ "-" ++ toString (batch_end - 1) ++ ": embedding failure"

/-- The batch start offsets `range(0, n, batch_size)`. -/
def batchStarts (n batch_size : Nat) : List Nat :=
  if batch_size = 0 then []
  else (List.range n).filter (fun i => i % batch_size = 0)

/-- The per-batch body of `embedding.py::embed_images_with_progress`:
for each start offset, a failed batch appends its error while a successful
one fills its slots; `progress.update(len(batch))` runs in both cases, and
the progress callback receives `progress.to_dict()` after every batch.
Returns the emitted updates, the error list, and per-file success flags. -/
def embedLoop (n batch_size : Nat) (batchFails : Nat → Bool) :
    List Nat → Nat → List String → List JobUpdate × List String × List Bool
  | [], _, errors => ([], errors, [])
  | i :: rest, processed, errors =>
    let batch_end := min (i + batch_size) n
    let b := batch_end - i
    let ok := !batchFails i
    let errors := if ok then errors else errors ++ [batch_error_msg i batch_end]
    let processed := processed + b
    let r := embedLoop n batch_size batchFails rest processed errors
    (progress_to_dict n processed errors :: r.1, r.2.1, List.replicate b ok ++ r.2.2)

/-- `embed_images_with_progress` over `n` files: updates, batch errors and
per-file success flags. -/
def embed_images_with_progress (n batch_size : Nat) (batchFails : Nat → Bool) :
    List JobUpdate × List String × List Bool :=
  embedLoop n batch_size batchFails (batchStarts n batch_size) 0 []

/-- The dedup-filter loop of `process_directory_for_ingestion`
(lines 88-115): a repeated hash or one already in the database emits a
`{"processed": len(seen_hashes)}` update; genuinely new files are queued.
Returns the emitted updates and the `(path, hash)` queue. -/
def ingestFilterLoop (db : SyncDb) :
    List (String × String) → List String → List JobUpdate × List (String × String)
  | [], _ => ([], [])
  | (img_path, content) :: rest, seen_hashes =>
    let file_hash := compute_file_hash content
    if seen_hashes.contains file_hash then
      let r := ingestFilterLoop db rest seen_hashes
      ({ processed := some seen_hashes.length } :: r.1, r.2)
    else if db.images.any (fun i => i.file_hash = file_hash) then
      let r := ingestFilterLoop db rest seen_hashes
      ({ processed := some seen_hashes.length } :: r.1, r.2)
    else
      let r := ingestFilterLoop db rest (seen_hashes ++ [file_hash])
      (r.1, (img_path, file_hash) :: r.2)

/-- The terminal `{"status": "completed", "progress": 1.0, ...}` updates. -/
def completedUpdate : JobUpdate := { status := some "completed", progress := some Ratio.one }

/-- `process_directory_for_ingestion`: `images` is the sorted scan of the
directory as `(absolute path, byte content)` pairs.  Returns the sequence
of progress updates emitted through the callback and the resulting
relational state (this function itself never sets a completed status; its
caller does). -/
def process_directory_for_ingestion (images : List (String × String))
    (metaOf : String → Option Nat × Option Nat)
    (batchFails : Nat → Bool) (batch_size : Nat) (db : SyncDb) :
    List JobUpdate × SyncDb :=
  let total := images.length
  if total = 0 then
    ([{ status := some "completed", progress := some Ratio.one, total := some 0,
        processed := some 0, errors := some [] }], db)
  else
    let updates0 : List JobUpdate := [{ total := some total }]
    let fr := ingestFilterLoop db images []
    let filterUpdates := fr.1
    let new_images_data := fr.2
    if new_images_data = [] then
      (updates0 ++ filterUpdates ++ [completedUpdate], db)
    else
      let thumbnails_to_embed := new_images_data.map (fun pc =>
        let meta := metaOf pc.1
        (⟨pc.1, pc.2, generate_thumbnail pc.2, meta.1, meta.2⟩ : ThumbData))
      let n := thumbnails_to_embed.length
      let er := embed_images_with_progress n batch_size batchFails
      let embedUpdates := er.1
      let embed_errors := er.2.1
      let flags := er.2.2
      let errorUpdates : List JobUpdate :=
        if embed_errors ≠ [] then [{ errors := some embed_errors }] else []
      let valid := (thumbnails_to_embed.zip flags).filterMap
        (fun tf => if tf.2 then some tf.1 else none)
      if valid = [] then
        (updates0 ++ filterUpdates ++ embedUpdates ++ errorUpdates ++
          [{ errors := some ["No embeddings generated successfully"] }, completedUpdate], db)
      else
        (updates0 ++ filterUpdates ++ embedUpdates ++ errorUpdates,
         save_ingested_images valid (valid.map (fun _ => ([] : List Int))) db)

/-- The record `process_directory_job` installs before calling the
ingestion function. -/
def process_job_init (directory_path : String) : JobRec :=
  ⟨"processing", Ratio.zero, 0, 0, [], some directory_path⟩

/-- The states of the job record as the updates of an ingestion run are
merged in, starting from the freshly installed record. -/
def jobTrace (directory_path : String) (images : List (String × String))
    (metaOf : String → Option Nat × Option Nat)
    (batchFails : Nat → Bool) (batch_size : Nat) (db : SyncDb) : List JobRec :=
  (process_directory_for_ingestion images metaOf batchFails batch_size db).1.scanl
    mergeUpdate (process_job_init directory_path)

/-- `IngestionJobService.process_directory_job`: installs the processing
record, then calls `process_directory_for_ingestion` with `batch_size=`,
`image_extensions=` and `embedding_model=` keywords; the resulting
`TypeError` is caught and the job record replaced by an error record
preserving the counters. -/
def process_directory_job (directory_path : String)
    (images : List (String × String))
    (metaOf : String → Option Nat × Option Nat)
    (batchFails : Nat → Bool) (batch_size : Nat) (db : SyncDb) :
    JobRec × SyncDb :=
  let job := process_job_init directory_path
  if pythonCallOk process_directory_for_ingestion_params
      process_directory_job_call_kwargs then
    let r := process_directory_for_ingestion images metaOf batchFails batch_size db
    let job := r.1.foldl mergeUpdate job
    ({ job with status := "completed", progress := Ratio.one }, r.2)
  else
    ({ status := "error", progress := job.progress, total := job.total,
       processed := job.processed, errors := [process_directory_type_error_msg],
       directory_path := none }, db)

/-! ## Embedding retry state machine (`app/database.py`) -/

/-- `MAX_RETRY_COUNT` from `app/constants.py` (default). -/
def MAX_RETRY_COUNT : Nat := 3

/-- `RETRY_BASE_DELAY_SECONDS` from `app/constants.py` (default). -/
def RETRY_BASE_DELAY_SECONDS : Nat := 60

/-- `database.py::calculate_next_retry_at`. -/
def calculate_next_retry_at (now retry_count : Nat) : Nat :=
  now + RETRY_BASE_DELAY_SECONDS * 2 ^ retry_count

/-- The column values `_mark_for_retry_sync` writes to the image row
(`next_retry_at = none` means the update leaves that column alone). -/
structure RetryUpdate where
  embedding_status : String
  retry_count : Nat
  error_code : String
  error_message : String
  next_retry_at : Option Nat
deriving DecidableEq, Repr

/-- `database.py::_mark_for_retry_sync`: increment the stored retry count;
if the incremented count has reached `MAX_RETRY_COUNT` the row becomes
`failed_permanent` with an exhaustion message, otherwise it becomes
`failed_retryable` with `next_retry_at` computed from the *incremented*
count. -/
def mark_for_retry (now current_retry_count : Nat)
    (error_code error_message : String) : RetryUpdate :=
  let new_retry_count := current_retry_count + 1
  if MAX_RETRY_COUNT ≤ new_retry_count then
    ⟨"failed_permanent", new_retry_count, error_code,
     "Max retries (" ++ toString MAX_RETRY_COUNT ++ ") exceeded. Last error: "
       ++ error_message, none⟩
  else
    ⟨"failed_retryable", new_retry_count, error_code, error_message,
     some (calculate_next_retry_at now new_retry_count)⟩

/-- An image row as the retry queue of `app/database.py` sees it
(`app/models.py::Image` queue fields). -/
structure QueueImage where
  id : Nat
  embedding_status : String
  retry_count : Nat
  next_retry_at : Option Nat
deriving DecidableEq, Repr

/-- `database.py::_get_pending_retries_sync`: `failed_retryable` rows whose
`next_retry_at` has elapsed, oldest due first, bounded by the batch size. -/
def get_pending_retries (images : List QueueImage) (now limit : Nat) :
    List QueueImage :=
  ((images.filter (fun i =>
      i.embedding_status = "failed_retryable" &&
        match i.next_retry_at with
        | some t => t ≤ now
        | none => false)).insertionSort
    (fun a b => a.next_retry_at.getD 0 ≤ b.next_retry_at.getD 0)).take limit

/-! ## Scheduler stop (`DirectorySyncService.stop_background_sync`) -/

/-- The two stop mechanisms of the service: the `asyncio.Event` checked by
the loop, and cancellation of the loop task. -/
structure SchedulerCtl where
  stop_event_set : Bool
  task_cancel_requested : Bool
deriving DecidableEq, Repr

/-- `stop_background_sync`: sets the stop event *and* cancels the task. -/
def stop_background_sync (_c : SchedulerCtl) : SchedulerCtl := ⟨true, true⟩

/-- Outcome of one pass over the due directories of a tick. -/
structure TickOutcome where
  completed_passes : Nat
  aborted_mid_pass : Bool
deriving DecidableEq, Repr

/-- Execution of one pass consisting of `await_points` suspension points
starting at global await index `clock`.  Per asyncio semantics, a
cancellation requested of the task raises `CancelledError` at the next
suspension point, so a pass whose await range contains the delivery index
does not run to completion. -/
def runOnePass (await_points : Nat) (cancelAt : Option Nat) (clock : Nat) :
    Bool × Nat :=
  match cancelAt with
  | none => (true, clock + await_points)
  | some c =>
    if clock ≤ c ∧ c < clock + await_points then (false, c)
    else (true, clock + await_points)

/-- The loop body of a tick: the state is
`(await clock, completed passes, aborted flag, stop observed)`.  The stop
event is checked before starting a directory (`flagAfter` completed passes
make it read as set), never inside a pass; a requested cancellation is
delivered at an await point and aborts the pass containing it. -/
def tickStep (flagAfter cancelAt : Option Nat)
    (st : Nat × Nat × Bool × Bool) (n : Nat) : Nat × Nat × Bool × Bool :=
  let (clock, completed, aborted, stopped) := st
  if stopped ∨ aborted then st
  else if (match flagAfter with | some k => decide (k ≤ completed) | none => false) = true then
    (clock, completed, aborted, true)
  else
    let r := runOnePass n cancelAt clock
    if r.1 then (r.2, completed + 1, aborted, stopped)
    else (r.2, completed, true, stopped)

/-- One tick of `_sync_loop` over the due directories (`passes` gives the
await-point count of each directory sync). -/
def run_tick (passes : List Nat) (flagAfter : Option Nat)
    (cancelAt : Option Nat) : TickOutcome :=
  let final := passes.foldl (tickStep flagAfter cancelAt) (0, 0, false, false)
  ⟨final.2.1, final.2.2.1⟩

/-! ## Auxiliaries for the verified properties -/

/-- The committed relational state after `_index_files` runs inside the
`_process_sync_changes` transaction: the new state on success, the entry
state when the raised `TypeError` forces `session.rollback()`. -/
def index_files_outcome (fs : List (String × String))
    (metaOf : String → Option Nat × Option Nat)
    (embedOf : String → Option (List Int))
    (file_paths : List String) (db : SyncDb) : SyncDb :=
  match index_files fs metaOf embedOf file_paths db with
  | Except.ok db2 => db2
  | Except.error _ => db

/-- Every column of an `Image` row except `file_path`. -/
def nonPathFields (r : ImageRow) :
    Nat × String × Option String × Option Nat × Option Nat × Option Nat × String :=
  (r.id, r.file_hash, r.thumbnail_path, r.width, r.height, r.embedding_id,
   r.embedding_status)

/-- Monotone non-decrease of a numeric sequence. -/
def nonDecreasing : List Nat → Bool
  | [] => true
  | [_] => true
  | a :: b :: rest => a ≤ b && nonDecreasing (b :: rest)

/-- A progress update that either leaves the status alone or marks the job
completed while simultaneously setting `progress` to `1.0`. -/
def statusOk (u : JobUpdate) : Bool :=
  match u.status with
  | none => true
  | some s => s == "completed" && u.progress == some Ratio.one

/-! ## Concrete scenarios -/

/-- The empty relational state. -/
def emptyDb : SyncDb := ⟨[], [], [], [], []⟩

/-- A tracked directory configured for the Merkle strategy. -/
def merkleDir : TrackedDir := ⟨"/pics", "merkle", true, some 100, none, 300⟩

/-- Scenario of the detection-correctness property: a tracked root holding
files A and B. -/
def fsAB : FsNode :=
  FsNode.dir [("A.jpg", FsNode.file "contentA" 10), ("B.jpg", FsNode.file "contentB" 11)]

/-- The same root after deleting A. -/
def fsOnlyB : FsNode := FsNode.dir [("B.jpg", FsNode.file "contentB" 11)]

/-- The Merkle rows a first sync of `fsAB` stores. -/
def nodesAB : List MNodeRec := (build_merkle_tree 4 fsAB "").2

/-- Scenario of the idempotence property: a tracked root holding one file. -/
def fsSingle : FsNode := FsNode.dir [("A.jpg", FsNode.file "x" 5)]

/-- The Merkle rows a first sync of `fsSingle` stores. -/
def nodesSingle : List MNodeRec := (build_merkle_tree 4 fsSingle "").2

/-- Content-dedup scenario: the tracked root holds A and its byte-identical
copy A2. -/
def dedupFs : List (String × String) :=
  [("/pics/A.jpg", "img"), ("/pics/A2.jpg", "img")]

/-- Database already holding the image row of A (hash of `"img"`). -/
def dedupDb : SyncDb :=
  { emptyDb with
    images := [⟨1, compute_file_hash "img", "/pics/A.jpg", some "thumbnails/t.jpg",
                some 4, some 4, some 7, "completed"⟩],
    embeddings := [⟨7, SIGLIP_MODEL_NAME⟩] }

/-- Metadata extractor used by the concrete runs. -/
def constMeta : String → Option Nat × Option Nat := fun _ => (some 4, some 4)

/-- Embedder outcome used by the concrete runs: every file embeds. -/
def allEmbed : String → Option (List Int) := fun _ => some [1]

/-- Job-progress scenario: a scan of fourteen files, thirteen new ones
followed (in sorted order) by one whose content is already in the
database. -/
def c8images : List (String × String) :=
  [("/p/a01.jpg", "c01"), ("/p/a02.jpg", "c02"), ("/p/a03.jpg", "c03"),
   ("/p/a04.jpg", "c04"), ("/p/a05.jpg", "c05"), ("/p/a06.jpg", "c06"),
   ("/p/a07.jpg", "c07"), ("/p/a08.jpg", "c08"), ("/p/a09.jpg", "c09"),
   ("/p/a10.jpg", "c10"), ("/p/a11.jpg", "c11"), ("/p/a12.jpg", "c12"),
   ("/p/a13.jpg", "c13"), ("/p/zz.jpg", "old")]

/-- Database already holding the content of `/p/zz.jpg`. -/
def c8db : SyncDb :=
  { emptyDb with
    images := [⟨1, compute_file_hash "old", "/p/zz.jpg", none, none, none, none,
               "completed"⟩] }

/-- Missing-path scenario: a snapshot-strategy directory carrying a stale
failure message from an earlier pass. -/
def c9dir : TrackedDir := ⟨"/gone", "snapshot", true, some 10, some "stale failure", 300⟩

/-- A tracked directory configured for the snapshot strategy. -/
def snapDir : TrackedDir := ⟨"/pics", "snapshot", true, some 100, none, 300⟩

/-- The snapshot rows a first sync of `fsAB` stores. -/
def snapsAB : List (String × SnapRow) := (snapshotSync 4 snapDir (some fsAB) [] 100).2.2

/-- The `fsAB` root after changing the bytes of B. -/
def fsABmod : FsNode :=
  FsNode.dir [("A.jpg", FsNode.file "contentA" 10), ("B.jpg", FsNode.file "contentB2" 12)]

/-- The `fsAB` root after adding file C. -/
def fsABC : FsNode :=
  FsNode.dir [("A.jpg", FsNode.file "contentA" 10), ("B.jpg", FsNode.file "contentB" 11),
              ("C.jpg", FsNode.file "contentC" 13)]

end Imgrep

namespace Imgrep

/-! ## Order lemmas for the string sort -/

theorem charListLe_total : ∀ as bs : List Char,
    charListLe as bs = true ∨ charListLe bs as = true := by
  intro as
  induction as with
  | nil => intro bs; left; rfl
  | cons a as ih =>
    intro bs
    cases bs with
    | nil => right; rfl
    | cons b bs =>
      rcases lt_trichotomy a b with h | h | h
      · left; simp [charListLe, h]
      · subst h
        rcases ih bs with h2 | h2
        · left; simp [charListLe, lt_irrefl, h2]
        · right; simp [charListLe, lt_irrefl, h2]
      · right; simp [charListLe, h]

theorem charListLe_trans : ∀ as bs cs : List Char,
    charListLe as bs = true → charListLe bs cs = true → charListLe as cs = true := by
  intro as
  induction as with
  | nil => intro bs cs _ _; rfl
  | cons a as ih =>
    intro bs cs h1 h2
    cases bs with
    | nil => simp [charListLe] at h1
    | cons b bs =>
      cases cs with
      | nil => simp [charListLe] at h2
      | cons c cs =>
        simp only [charListLe] at h1 h2 ⊢
        split at h1
        · next hab =>
          rcases lt_trichotomy b c with hbc | hbc | hbc
          · have : a < c := lt_trans hab hbc
            simp [this]
          · subst hbc; simp [hab]
          · simp [hbc, not_lt_of_gt hbc] at h2
        · next hab =>
          split at h1
          · exact absurd h1 (by simp)
          · next hba =>
            have hab' : a = b := le_antisymm (not_lt.mp hba) (not_lt.mp hab)
            subst hab'
            split at h2
            · next hac => simp [hac]
            · next hac =>
              split at h2
              · exact absurd h2 (by simp)
              · next hca =>
                have : a = c := le_antisymm (not_lt.mp hca) (not_lt.mp hac)
                subst this
                simp [lt_irrefl, ih bs cs h1 h2]

theorem charListLe_antisymm : ∀ as bs : List Char,
    charListLe as bs = true → charListLe bs as = true → as = bs := by
  intro as
  induction as with
  | nil => intro bs _ h2; cases bs with
    | nil => rfl
    | cons b bs => simp [charListLe] at h2
  | cons a as ih =>
    intro bs h1 h2
    cases bs with
    | nil => simp [charListLe] at h1
    | cons b bs =>
      simp only [charListLe] at h1 h2
      rcases lt_trichotomy a b with h | h | h
      · simp [h, not_lt_of_gt h] at h2
      · subst h
        simp only [lt_irrefl, if_false] at h1 h2
        rw [ih bs h1 h2]
      · simp [h, not_lt_of_gt h] at h1

instance strLeTotal : IsTotal String (fun a b => strLe a b = true) :=
  ⟨fun a b => charListLe_total a.data b.data⟩

instance strLeTrans : IsTrans String (fun a b => strLe a b = true) :=
  ⟨fun a b c => charListLe_trans a.data b.data c.data⟩

instance strLeAntisymm : IsAntisymm String (fun a b => strLe a b = true) :=
  ⟨fun a b h1 h2 => by
    cases a; cases b
    exact congrArg String.mk (charListLe_antisymm _ _ h1 h2)⟩

theorem sortStrings_perm_eq {l1 l2 : List String} (h : l1.Perm l2) :
    sortStrings l1 = sortStrings l2 := by
  apply List.eq_of_perm_of_sorted (r := fun a b => strLe a b = true)
  · exact (List.perm_insertionSort _ l1).trans (h.trans (List.perm_insertionSort _ l2).symm)
  · exact List.sorted_insertionSort _ l1
  · exact List.sorted_insertionSort _ l2

theorem hash_children_perm {l1 l2 : List String} (h : l1.Perm l2) :
    hash_children l1 = hash_children l2 := by
  unfold hash_children
  rw [sortStrings_perm_eq h]

/-! ## The Merkle hash is a function of the tree alone -/

theorem foldl_buildStep_fst (recurse : FsNode → String → String × List MNodeRec)
    (relative_path : String) :
    ∀ (items : List (String × FsNode)) (acc : List String × List MNodeRec),
    (items.foldl (buildStep recurse relative_path) acc).1
      = acc.1 ++ items.filterMap (fun item =>
          childHashOnly (fun n => (recurse n (childRel relative_path item.1)).1) item) := by
  intro items
  induction items with
  | nil => intro acc; simp
  | cons item rest ih =>
    intro acc
    rw [List.foldl_cons, ih, List.filterMap_cons]
    cases h2 : item.2 with
    | dir es =>
      by_cases hh : (recurse (FsNode.dir es) (childRel relative_path item.1)).1 = ""
      · simp [buildStep, childHashOnly, h2, hh]
      · simp [buildStep, childHashOnly, h2, hh]
    | file c m =>
      by_cases hi : is_image_path item.1
      · simp [buildStep, childHashOnly, h2, hi]
      · simp [buildStep, childHashOnly, h2, hi]

theorem build_fst (fuel : Nat) :
    ∀ (n : FsNode) (relative_path : String),
    (build_merkle_tree fuel n relative_path).1 = merkleHashOnly fuel n := by
  induction fuel with
  | zero => intro n r; cases n <;> rfl
  | succ fuel ih =>
    intro n r
    cases n with
    | file c m => rfl
    | dir entries =>
      show (build_merkle_tree (fuel + 1) (FsNode.dir entries) r).1
        = merkleHashOnly (fuel + 1) (FsNode.dir entries)
      simp only [build_merkle_tree, merkleHashOnly]
      rw [foldl_buildStep_fst]
      have hfg : (fun item => childHashOnly
          (fun n => (build_merkle_tree fuel n (childRel r item.1)).1) item)
          = childHashOnly (merkleHashOnly fuel) := by
        funext item
        have : (fun n => (build_merkle_tree fuel n (childRel r item.1)).1)
            = merkleHashOnly fuel := by
          funext n; exact ih n _
        rw [this]
      rw [hfg]
      simp

theorem hashOnly_dir_perm (fuel : Nat) {e1 e2 : List (String × FsNode)}
    (h : e1.Perm e2) :
    merkleHashOnly fuel (FsNode.dir e1) = merkleHashOnly fuel (FsNode.dir e2) := by
  cases fuel with
  | zero => rfl
  | succ fuel =>
    simp only [merkleHashOnly]
    have hperm : ((sortEntries e1).filterMap (childHashOnly (merkleHashOnly fuel))).Perm
        ((sortEntries e2).filterMap (childHashOnly (merkleHashOnly fuel))) := by
      apply List.Perm.filterMap
      exact (List.perm_insertionSort _ e1).trans (h.trans (List.perm_insertionSort _ e2).symm)
    by_cases h1 : (sortEntries e1).filterMap (childHashOnly (merkleHashOnly fuel)) = []
    · have h2 : (sortEntries e2).filterMap (childHashOnly (merkleHashOnly fuel)) = [] := by
        rw [h1] at hperm
        exact hperm.symm.eq_nil
      simp [h1, h2]
    · have h2 : (sortEntries e2).filterMap (childHashOnly (merkleHashOnly fuel)) ≠ [] := by
        intro hc
        rw [hc] at hperm
        exact h1 hperm.eq_nil
      simp only [h1, h2, if_false]
      exact hash_children_perm hperm

/-! ## Invariants of the indexing phase -/

theorem setPathByHash_map_hash : ∀ (l : List ImageRow) (h p : String),
    (setPathByHash l h p).map ImageRow.file_hash = l.map ImageRow.file_hash := by
  intro l h p
  induction l with
  | nil => rfl
  | cons r rs ih =>
    simp only [setPathByHash]
    split
    · simp
    · simp [ih]

theorem setPathByHash_map_nonPath : ∀ (l : List ImageRow) (h p : String),
    (setPathByHash l h p).map nonPathFields = l.map nonPathFields := by
  intro l h p
  induction l with
  | nil => rfl
  | cons r rs ih =>
    simp only [setPathByHash]
    split
    · simp [nonPathFields]
    · simp [ih]

theorem setPathByHash_length : ∀ (l : List ImageRow) (h p : String),
    (setPathByHash l h p).length = l.length := by
  intro l h p
  induction l with
  | nil => rfl
  | cons r rs ih =>
    simp only [setPathByHash]
    split
    · simp
    · simp [ih]

theorem indexStep_inv (fs : List (String × String))
    (metaOf : String → Option Nat × Option Nat)
    (st : SyncDb × List ThumbData) (p : String) :
    ((indexStep fs metaOf st p).1.images.map ImageRow.file_hash
        = st.1.images.map ImageRow.file_hash)
      ∧ (indexStep fs metaOf st p).1.embeddings = st.1.embeddings := by
  unfold indexStep
  cases fs.lookup p with
  | none => exact ⟨rfl, rfl⟩
  | some content =>
    simp only []
    split
    · exact ⟨setPathByHash_map_hash _ _ _, rfl⟩
    · exact ⟨rfl, rfl⟩

theorem index_phase1_inv (fs : List (String × String))
    (metaOf : String → Option Nat × Option Nat) :
    ∀ (ps : List String) (st : SyncDb × List ThumbData),
    ((ps.foldl (indexStep fs metaOf) st).1.images.map ImageRow.file_hash
        = st.1.images.map ImageRow.file_hash)
      ∧ (ps.foldl (indexStep fs metaOf) st).1.embeddings = st.1.embeddings := by
  intro ps
  induction ps with
  | nil => intro st; exact ⟨rfl, rfl⟩
  | cons p rest ih =>
    intro st
    rw [List.foldl_cons]
    constructor
    · rw [(ih (indexStep fs metaOf st p)).1, (indexStep_inv fs metaOf st p).1]
    · rw [(ih (indexStep fs metaOf st p)).2, (indexStep_inv fs metaOf st p).2]

theorem index_files_cases (fs : List (String × String))
    (metaOf : String → Option Nat × Option Nat)
    (embedOf : String → Option (List Int))
    (ps : List String) (db : SyncDb) :
    index_files fs metaOf embedOf ps db
        = Except.ok (ps.foldl (indexStep fs metaOf) (db, [])).1
      ∨ index_files fs metaOf embedOf ps db = Except.error save_type_error_msg := by
  unfold index_files
  simp only []
  split
  · left; rfl
  · split
    · left; rfl
    · right
      have hc : pythonCallOk save_ingested_images_params index_files_save_call_kwargs
          = false := by decide
      simp [hc]

theorem index_files_outcome_inv (fs : List (String × String))
    (metaOf : String → Option Nat × Option Nat)
    (embedOf : String → Option (List Int))
    (ps : List String) (db : SyncDb) :
    ((index_files_outcome fs metaOf embedOf ps db).images.map ImageRow.file_hash
        = db.images.map ImageRow.file_hash)
      ∧ (index_files_outcome fs metaOf embedOf ps db).embeddings = db.embeddings := by
  rcases index_files_cases fs metaOf embedOf ps db with h | h
  · unfold index_files_outcome
    rw [h]
    exact index_phase1_inv fs metaOf ps (db, [])
  · unfold index_files_outcome
    rw [h]
    exact ⟨rfl, rfl⟩

/-! ## Invariants of the job-progress updates -/

theorem embedLoop_processed_nonDec (n bs : Nat) (f : Nat → Bool) :
    ∀ (starts : List Nat) (processed : Nat) (errors : List String),
    nonDecreasing (processed ::
      (embedLoop n bs f starts processed errors).1.filterMap JobUpdate.processed)
      = true := by
  intro starts
  induction starts with
  | nil => intro p e; rfl
  | cons i rest ih =>
    intro p e
    simp only [embedLoop, List.filterMap_cons, progress_to_dict]
    simp only [nonDecreasing, Bool.and_eq_true]
    refine ⟨by simp, ?_⟩
    exact ih _ _

theorem embedLoop_statusOk (n bs : Nat) (f : Nat → Bool) :
    ∀ (starts : List Nat) (processed : Nat) (errors : List String),
    ((embedLoop n bs f starts processed errors).1.all statusOk) = true := by
  intro starts
  induction starts with
  | nil => intro p e; rfl
  | cons i rest ih =>
    intro p e
    simp only [embedLoop, List.all_cons, Bool.and_eq_true]
    exact ⟨rfl, ih _ _⟩

theorem ingestFilterLoop_statusOk (db : SyncDb) :
    ∀ (images : List (String × String)) (seen : List String),
    ((ingestFilterLoop db images seen).1.all statusOk) = true := by
  intro images
  induction images with
  | nil => intro seen; rfl
  | cons pc rest ih =>
    intro seen
    simp only [ingestFilterLoop]
    split
    · simp only [List.all_cons, Bool.and_eq_true]; exact ⟨rfl, ih _⟩
    · split
      · simp only [List.all_cons, Bool.and_eq_true]; exact ⟨rfl, ih _⟩
      · exact ih _

theorem process_directory_updates_statusOk
    (images : List (String × String))
    (metaOf : String → Option Nat × Option Nat)
    (batchFails : Nat → Bool) (batch_size : Nat) (db : SyncDb) :
    ((process_directory_for_ingestion images metaOf batchFails batch_size db).1.all
      statusOk) = true := by
  simp only [process_directory_for_ingestion]
  split
  · rfl
  · split
    · simp only [List.all_append, Bool.and_eq_true]
      exact ⟨⟨rfl, ingestFilterLoop_statusOk db images []⟩, rfl⟩
    · split
      · simp only [List.all_append, Bool.and_eq_true]
        refine ⟨⟨⟨⟨rfl, ingestFilterLoop_statusOk db images []⟩,
          embedLoop_statusOk _ _ _ _ _ _⟩, ?_⟩, rfl⟩
        split
        · rfl
        · rfl
      · simp only [List.all_append, Bool.and_eq_true]
        refine ⟨⟨⟨rfl, ingestFilterLoop_statusOk db images []⟩,
          embedLoop_statusOk _ _ _ _ _ _⟩, ?_⟩
        split
        · rfl
        · rfl

/-! ## The flag check of the scheduler loop never aborts a pass -/

theorem tickStep_no_cancel_no_abort (flagAfter : Option Nat) :
    ∀ (st : Nat × Nat × Bool × Bool) (n : Nat), st.2.2.1 = false →
    (tickStep flagAfter none st n).2.2.1 = false := by
  intro st n h
  obtain ⟨clock, completed, aborted, stopped⟩ := st
  simp only at h
  subst h
  simp only [tickStep, runOnePass]
  split
  · rfl
  · split
    · rfl
    · rfl

theorem run_tick_flag_only_no_abort (passes : List Nat) (flagAfter : Option Nat) :
    (run_tick passes flagAfter none).aborted_mid_pass = false := by
  unfold run_tick
  suffices h : ∀ st : Nat × Nat × Bool × Bool, st.2.2.1 = false →
      (passes.foldl (tickStep flagAfter none) st).2.2.1 = false by
    exact h (0, 0, false, false) rfl
  induction passes with
  | nil => intro st h; exact h
  | cons n rest ih =>
    intro st h
    exact ih _ (tickStep_no_cancel_no_abort flagAfter st n h)

/-! ## The claims -/

/-- Claim C1 (code bug): the claim states that for a tracked directory with
recorded files A and B, a sync after deleting A returns deleted = [A] with
no other entries.  Under the Merkle strategy the code violates this: the
`startswith(relative_path or ".")` filter of `_compare_trees` compares
root-level file paths against the prefix ".", so the deleted file `A.jpg`
is never reported, while the stored root directory node "." (absent from
`seen_paths`) is reported deleted instead.  This theorem evaluates the
embedded code at all six scenarios of the claim over the recorded files
A.jpg and B.jpg: the snapshot strategy yields exactly `added=[C]`,
`deleted=[A]` and `modified=[B]` as claimed, while the Merkle strategy
returns `deleted = ["."]` in place of the deleted A, and adds the phantom
`"."` deletion to the add-C and modify-B scenarios as well. -/
theorem C1_merkle_delete_misreported :
    (snapshotSync 4 snapDir (some fsABC) snapsAB 200).1
        = ⟨["/pics/C.jpg"], [], [], 2, [], "snapshot"⟩
    ∧ (snapshotSync 4 snapDir (some fsOnlyB) snapsAB 200).1
        = ⟨[], [], ["A.jpg"], 1, [], "snapshot"⟩
    ∧ (snapshotSync 4 snapDir (some fsABmod) snapsAB 200).1
        = ⟨[], ["/pics/B.jpg"], [], 1, [], "snapshot"⟩
    ∧ (merkleSync 4 merkleDir (some fsABC) nodesAB 200).1
        = ⟨["/pics/C.jpg"], [], ["."], 0, [], "merkle"⟩
    ∧ (merkleSync 4 merkleDir (some fsABmod) nodesAB 200).1
        = ⟨["/pics/B.jpg"], [], ["."], 0, [], "merkle"⟩
    ∧ (merkleSync 4 merkleDir (some fsOnlyB) nodesAB 200).1
        = ⟨[], [], ["."], 0, [], "merkle"⟩ :=
  ⟨by decide, by decide, by decide, by decide, by decide, by decide⟩

/-- Claim C2 (code bug): the claim states that under both strategies a
second sync with no filesystem changes returns empty added, modified and
deleted lists.  Under the Merkle strategy the code violates this for every
non-empty previously synced root: the stored root directory node "." always
passes the `startswith` filter of `_compare_trees` and is never in
`seen_paths`, so the second sync of an unchanged single-file directory
returns `deleted = ["."]`.  The snapshot strategy is idempotent as
claimed: an unchanged two-file directory yields the empty result with
`unchanged = 2`. -/
theorem C2_merkle_second_sync_not_clean :
    (snapshotSync 4 snapDir (some fsAB) snapsAB 200).1
        = ⟨[], [], [], 2, [], "snapshot"⟩
    ∧ (merkleSync 4 merkleDir (some fsSingle) nodesSingle 200).1
        = ⟨[], [], ["."], 0, [], "merkle"⟩ :=
  ⟨by decide, by decide⟩

/-- Claim C3 (confirmed): the scheduler-triggered pass calls the strategy
sync with an `extensions=` keyword that neither strategy `sync` accepts, so
the call raises `TypeError` before any change detection runs; the pass's
job ends with status `error` carrying the message, the directory's
`last_error` is set to that message, and the relational state is untouched
— for both strategies, every directory, filesystem and database state. -/
theorem C3_scheduled_sync_typeerror (fuel : Nat) (dir : TrackedDir)
    (fs : Option FsNode) (metaOf : String → Option Nat × Option Nat)
    (embedOf : String → Option (List Int)) (db : SyncDb) (now : Nat) :
    pythonCallOk sync_method_params scheduled_sync_call_kwargs = false
    ∧ sync_with_error_handling fuel { dir with sync_strategy := "snapshot" }
        fs metaOf embedOf db now
      = (⟨"error", Ratio.zero, 0, 0,
          [sync_type_error_msg "SnapshotSyncStrategy"], some dir.path⟩,
         { dir with sync_strategy := "snapshot",
                    last_error := some (sync_type_error_msg "SnapshotSyncStrategy") }, db)
    ∧ sync_with_error_handling fuel { dir with sync_strategy := "merkle" }
        fs metaOf embedOf db now
      = (⟨"error", Ratio.zero, 0, 0,
          [sync_type_error_msg "MerkleSyncStrategy"], some dir.path⟩,
         { dir with sync_strategy := "merkle",
                    last_error := some (sync_type_error_msg "MerkleSyncStrategy") }, db) :=
  ⟨rfl, rfl, rfl⟩

/-- Claim C4 (confirmed): both persistence paths for newly embedded images
fail at a call with an unexpected keyword argument — `_index_files` passes
`model_name=` to `save_ingested_images`, and `process_directory_job` passes
`batch_size=`, `image_extensions=` and `embedding_model=` to
`process_directory_for_ingestion` — so for every input the committed state
after `_index_files` has exactly the original image hashes and embedding
rows (no insertions), and `process_directory_job` leaves the database
untouched with the job in status `error`. -/
theorem C4_ingestion_paths_never_persist :
    pythonCallOk save_ingested_images_params index_files_save_call_kwargs = false
    ∧ pythonCallOk process_directory_for_ingestion_params
        process_directory_job_call_kwargs = false
    ∧ (∀ (fs : List (String × String)) (metaOf : String → Option Nat × Option Nat)
        (embedOf : String → Option (List Int)) (ps : List String) (db : SyncDb),
        ((index_files_outcome fs metaOf embedOf ps db).images.map ImageRow.file_hash
            = db.images.map ImageRow.file_hash)
        ∧ (index_files_outcome fs metaOf embedOf ps db).embeddings = db.embeddings)
    ∧ (∀ (path : String) (images : List (String × String))
        (metaOf : String → Option Nat × Option Nat)
        (batchFails : Nat → Bool) (bs : Nat) (db : SyncDb),
        (process_directory_job path images metaOf batchFails bs db).2 = db
        ∧ (process_directory_job path images metaOf batchFails bs db).1.status
            = "error") := by
  refine ⟨rfl, rfl, ?_, ?_⟩
  · intro fs m e ps db
    exact index_files_outcome_inv fs m e ps db
  · intro path images m f bs db
    exact ⟨rfl, rfl⟩

/-- Claim C5, counterexample: the claim states that a retryable failure at
`retry_count = 0` schedules `next_retry_at ≈ now + base_delay`.  The code
increments the count before computing the delay, so at `retry_count = 0`
it schedules `now + 120` seconds — twice the base delay of 60, not the
claimed `now + 60`. -/
theorem C5_counterexample :
    (mark_for_retry 0 0 "500" "boom").next_retry_at = some 120
    ∧ RETRY_BASE_DELAY_SECONDS = 60
    ∧ (120 : Nat) ≠ 0 + RETRY_BASE_DELAY_SECONDS :=
  ⟨rfl, rfl, by decide⟩

/-- Claim C5, amended: a retryable failure at `retry_count = r` with
`r + 1 < MAX_RETRY_COUNT` sets status `failed_retryable`, increments the
count, and schedules `next_retry_at = now + base_delay * 2^(r+1)` (so
`now + 2*base` at r = 0 and `now + 4*base` at r = 1); a failure at
`r = MAX_RETRY_COUNT - 1` already converts the row to `failed_permanent`
with a message noting the retries were exhausted and schedules no retry;
and the retry reaper only ever selects `failed_retryable` rows, so a
permanent row is never retried again. -/
theorem C5_retry_backoff_amended (now rc : Nat) (code msg : String) :
    (mark_for_retry now rc code msg).embedding_status
        = (if MAX_RETRY_COUNT ≤ rc + 1 then "failed_permanent" else "failed_retryable")
    ∧ (mark_for_retry now rc code msg).retry_count = rc + 1
    ∧ (mark_for_retry now rc code msg).next_retry_at
        = (if MAX_RETRY_COUNT ≤ rc + 1 then none
           else some (now + RETRY_BASE_DELAY_SECONDS * 2 ^ (rc + 1)))
    ∧ (mark_for_retry now 0 code msg).next_retry_at
        = some (now + 2 * RETRY_BASE_DELAY_SECONDS)
    ∧ (mark_for_retry now 1 code msg).next_retry_at
        = some (now + 4 * RETRY_BASE_DELAY_SECONDS)
    ∧ (mark_for_retry now (MAX_RETRY_COUNT - 1) code msg).embedding_status
        = "failed_permanent"
    ∧ (mark_for_retry now (MAX_RETRY_COUNT - 1) code msg).error_message
        = "Max retries (3) exceeded. Last error: " ++ msg
    ∧ ∀ (images : List QueueImage) (t limit : Nat),
        ((get_pending_retries images t limit).all
          (fun i => i.embedding_status == "failed_retryable")) = true := by
  refine ⟨?_, ?_, ?_, ?_, ?_, rfl, rfl, ?_⟩
  · by_cases h : MAX_RETRY_COUNT ≤ rc + 1 <;> simp [mark_for_retry, h]
  · by_cases h : MAX_RETRY_COUNT ≤ rc + 1 <;> simp [mark_for_retry, h]
  · by_cases h : MAX_RETRY_COUNT ≤ rc + 1 <;>
      simp [mark_for_retry, h, calculate_next_retry_at]
  · have : now + RETRY_BASE_DELAY_SECONDS * 2 ^ (0 + 1)
        = now + 2 * RETRY_BASE_DELAY_SECONDS := by
      unfold RETRY_BASE_DELAY_SECONDS; ring
    rw [show (mark_for_retry now 0 code msg).next_retry_at
        = some (now + RETRY_BASE_DELAY_SECONDS * 2 ^ (0 + 1)) from rfl, this]
  · have : now + RETRY_BASE_DELAY_SECONDS * 2 ^ (1 + 1)
        = now + 4 * RETRY_BASE_DELAY_SECONDS := by
      unfold RETRY_BASE_DELAY_SECONDS; ring
    rw [show (mark_for_retry now 1 code msg).next_retry_at
        = some (now + RETRY_BASE_DELAY_SECONDS * 2 ^ (1 + 1)) from rfl, this]
  · intro images t limit
    rw [List.all_eq_true]
    intro i hi
    have h1 : i ∈ (images.filter (fun i =>
        i.embedding_status = "failed_retryable" &&
          match i.next_retry_at with
          | some t2 => t2 ≤ t
          | none => false)).insertionSort
        (fun a b => a.next_retry_at.getD 0 ≤ b.next_retry_at.getD 0) :=
      List.mem_of_mem_take hi
    have h2 := (List.perm_insertionSort
      (fun a b : QueueImage => a.next_retry_at.getD 0 ≤ b.next_retry_at.getD 0) _).mem_iff.mp h1
    have h3 := List.of_mem_filter h2
    simp only [Bool.and_eq_true, decide_eq_true_eq] at h3
    simp [h3.1]

/-- Claim C6 (confirmed): the Merkle hash of a directory is independent of
the order in which the filesystem reports its children — for any
permutation of the child list, `_build_merkle_tree` computes the same
directory hash (children are iterated in a sorted order and the child
hashes are sorted again inside `_hash_children` before digesting). -/
theorem C6_merkle_hash_order_independent (fuel : Nat) (relative_path : String)
    (entries1 entries2 : List (String × FsNode)) (h : entries1.Perm entries2) :
    (build_merkle_tree fuel (FsNode.dir entries1) relative_path).1
      = (build_merkle_tree fuel (FsNode.dir entries2) relative_path).1 := by
  rw [build_fst, build_fst]
  exact hashOnly_dir_perm fuel h

/-- Witness for C6 at a concrete two-file directory listed in both orders. -/
theorem C6_merkle_hash_order_independent_witness :
    ([("A.jpg", FsNode.file "contentA" 10), ("B.jpg", FsNode.file "contentB" 11)].Perm
      [("B.jpg", FsNode.file "contentB" 11), ("A.jpg", FsNode.file "contentA" 10)])
    ∧ (build_merkle_tree 4 (FsNode.dir
        [("A.jpg", FsNode.file "contentA" 10), ("B.jpg", FsNode.file "contentB" 11)]) "").1
      = (build_merkle_tree 4 (FsNode.dir
        [("B.jpg", FsNode.file "contentB" 11), ("A.jpg", FsNode.file "contentA" 10)]) "").1 :=
  ⟨List.Perm.swap _ _ _,
   C6_merkle_hash_order_independent 4 "" _ _ (List.Perm.swap _ _ _)⟩

/-- Claim C7, counterexample: the claim states that after copying A to A2
with identical bytes, the existing row's `file_path` is updated to A2 only
if A is later deleted.  In the code, indexing the copy A2 immediately
rewrites `file_path` to A2 even though A still exists on disk. -/
theorem C7_counterexample :
    index_files dedupFs constMeta allEmbed ["/pics/A2.jpg"] dedupDb
      = Except.ok { dedupDb with images := [⟨1, compute_file_hash "img", "/pics/A2.jpg",
          some "thumbnails/t.jpg", some 4, some 4, some 7, "completed"⟩] }
    ∧ dedupFs.lookup "/pics/A.jpg" = some "img" :=
  ⟨rfl, rfl⟩

/-- Claim C7, amended: indexing a path whose bytes hash to content already
present in the database produces no new `Image` row and no new `Embedding`
row; the existing row's `file_path` is rewritten to the newly indexed path
as soon as that path is indexed (tracking the most recently indexed
location of the content, whether or not the old path still exists), and
`file_path` is the only field of the row that changes. -/
theorem C7_content_dedup_amended (fs : List (String × String))
    (metaOf : String → Option Nat × Option Nat)
    (embedOf : String → Option (List Int))
    (db : SyncDb) (p c : String)
    (hfs : fs.lookup p = some c)
    (hdb : db.images.any (fun r => r.file_hash = compute_file_hash c) = true) :
    index_files fs metaOf embedOf [p] db
        = Except.ok { db with images := setPathByHash db.images (compute_file_hash c) p }
      ∧ (setPathByHash db.images (compute_file_hash c) p).map nonPathFields
          = db.images.map nonPathFields
      ∧ (setPathByHash db.images (compute_file_hash c) p).length = db.images.length := by
  refine ⟨?_, setPathByHash_map_nonPath _ _ _, setPathByHash_length _ _ _⟩
  unfold index_files
  simp only [List.foldl_cons, List.foldl_nil, indexStep, hfs, hdb, if_true]

/-- Witness for C7 at the concrete copy scenario. -/
theorem C7_content_dedup_amended_witness :
    dedupFs.lookup "/pics/A2.jpg" = some "img"
    ∧ (dedupDb.images.any (fun r => r.file_hash = compute_file_hash "img")) = true
    ∧ (index_files dedupFs constMeta allEmbed ["/pics/A2.jpg"] dedupDb
        = Except.ok { dedupDb with
            images := setPathByHash dedupDb.images (compute_file_hash "img") "/pics/A2.jpg" }
      ∧ (setPathByHash dedupDb.images (compute_file_hash "img") "/pics/A2.jpg").map
          nonPathFields = dedupDb.images.map nonPathFields
      ∧ (setPathByHash dedupDb.images (compute_file_hash "img") "/pics/A2.jpg").length
          = dedupDb.images.length) :=
  ⟨by decide, by decide,
   C7_content_dedup_amended dedupFs constMeta allEmbed dedupDb "/pics/A2.jpg" "img"
     (by decide) (by decide)⟩

/-- Claim C8, counterexample: the claim states that `processed` never
decreases over the updates applied to a job record and that progress 1.0
occurs exactly at status completed.  With thirteen new files followed by
one already-ingested file, the dedup phase reports `processed = 13`, after
which the first embedding batch (size 12) overwrites it with 12 — a
decrease — and the trace ends with progress exactly 1.0 while the status
is still `processing`. -/
theorem C8_counterexample :
    ((jobTrace "/p" c8images constMeta (fun _ => false) 12 c8db).map JobRec.processed
        = [0, 0, 13, 12, 13])
    ∧ nonDecreasing ((jobTrace "/p" c8images constMeta (fun _ => false) 12 c8db).map
        JobRec.processed) = false
    ∧ (jobTrace "/p" c8images constMeta (fun _ => false) 12 c8db).getLast?
        = some ⟨"processing", ⟨13, 13⟩, 13, 13, [], some "/p"⟩
    ∧ (Ratio.mk 13 13).isOne = true := by
  refine ⟨by decide, by decide, by decide, rfl⟩

/-- Claim C8, amended: within the embedding phase the `processed` counter
is monotonically non-decreasing across the emitted updates (it can drop
only at the hand-off from the dedup phase to the embedding phase); and
every update of an ingestion run that sets the job status to `completed`
simultaneously sets progress to 1.0 (while progress may equal 1.0 in
states whose status is not `completed`). -/
theorem C8_job_progress_amended :
    (∀ (n bs : Nat) (batchFails : Nat → Bool) (processed : Nat)
        (errors : List String) (starts : List Nat),
      nonDecreasing (processed ::
        (embedLoop n bs batchFails starts processed errors).1.filterMap
          JobUpdate.processed) = true)
    ∧ (∀ (images : List (String × String)) (metaOf : String → Option Nat × Option Nat)
        (batchFails : Nat → Bool) (batch_size : Nat) (db : SyncDb),
        ((process_directory_for_ingestion images metaOf batchFails batch_size db).1.all
          statusOk) = true) := by
  constructor
  · intro n bs f p e starts
    exact embedLoop_processed_nonDec n bs f starts p e
  · intro images m f bs db
    exact process_directory_updates_statusOk images m f bs db

/-- Claim C9, counterexample: the claim states that when the tracked path
is missing, the directory's `last_error` is set.  At a concrete directory
carrying a stale failure message, the manual sync of the missing path
returns the one-error empty result but `_process_sync_changes` clears
`last_error` to `None` (and stamps `last_synced_at`), so `last_error` ends
unset rather than set. -/
theorem C9_counterexample :
    c9dir.last_error = some "stale failure"
    ∧ sync_directory 4 c9dir none constMeta allEmbed emptyDb 50
        = Except.ok (⟨[], [], [], 0, [missingDirMsg "/gone"], "snapshot"⟩,
            ⟨"/gone", "snapshot", true, some 50, none, 300⟩, emptyDb) :=
  ⟨rfl, by decide⟩

/-- Claim C9, amended: for both strategies, a sync of a tracked directory
whose path does not exist returns a `SyncResult` with empty added, modified
and deleted lists and exactly one error message; the sync-result errors are
then ignored by `_process_sync_changes`, which clears `last_error` to
`None` and stamps `last_synced_at`; `is_active` is untouched, so the
directory remains active and is retried on the next scheduled tick. -/
theorem C9_missing_path_amended (fuel : Nat) (dir : TrackedDir)
    (metaOf : String → Option Nat × Option Nat)
    (embedOf : String → Option (List Int)) (db : SyncDb) (now : Nat) :
    sync_directory fuel { dir with sync_strategy := "snapshot" } none metaOf embedOf db now
      = Except.ok (⟨[], [], [], 0, [missingDirMsg dir.path], "snapshot"⟩,
          { dir with sync_strategy := "snapshot", last_synced_at := some now,
                     last_error := none }, db)
    ∧ sync_directory fuel { dir with sync_strategy := "merkle" } none metaOf embedOf db now
      = Except.ok (⟨[], [], [], 0, [missingDirMsg dir.path], "merkle"⟩,
          { dir with sync_strategy := "merkle", last_synced_at := some now,
                     last_error := none }, db) :=
  ⟨rfl, rfl⟩

/-- Claim C10, counterexample: the claim states that a stop request never
preempts an in-flight directory sync.  `stop_background_sync` both sets the
stop event and cancels the scheduler task; a cancellation delivered at an
await point inside the single in-flight pass (three await points,
delivery at index 1) aborts that pass, which therefore does not run to
completion — while without cancellation the same pass completes. -/
theorem C10_counterexample :
    stop_background_sync ⟨false, false⟩ = ⟨true, true⟩
    ∧ run_tick [3] none (some 1) = ⟨0, true⟩
    ∧ run_tick [3] none none = ⟨1, false⟩ :=
  ⟨rfl, by decide, by decide⟩

/-- Claim C10, amended: the stop event flag is observed only between
directory passes — an execution in which no cancellation is delivered never
aborts a pass mid-flight, whatever the flag does — but
`stop_background_sync` additionally requests cancellation of the scheduler
task, and a delivered cancellation can abort the in-flight pass rather than
letting it run to completion. -/
theorem C10_stop_semantics_amended :
    (∀ (passes : List Nat) (flagAfter : Option Nat),
      (run_tick passes flagAfter none).aborted_mid_pass = false)
    ∧ (∀ c : SchedulerCtl, stop_background_sync c = ⟨true, true⟩) := by
  constructor
  · intro passes flagAfter
    exact run_tick_flag_only_no_abort passes flagAfter
  · intro c
    rfl

end Imgrep
